import Mathlib

/-!
Shallow embedding of the file-intake logic of the `file-upload-lib`
repository, covering:

* `src/hooks/use-file-upload.ts` — the `useFileUpload` hook:
  `validateFile`, `createFilePreview`, `handleFiles`, `removeFile`,
  `clearFiles`;
* the `FileUploader` component's multi-file branch —
  `handleMultipleFiles` and its per-candidate size/capacity/type checks,
  plus `removeFile`.

Modelling conventions:
* A browser `File` is `JsFile`: `name`, `size` (bytes), `type` (MIME
  string) and `content` (the byte list, used only by preview
  generation).  Byte values are `Nat`; theorems that depend on the byte
  range carry an explicit `< 256` hypothesis.
* JS truthiness of a numeric config field (`maxSize && …`,
  `maxFiles || 6`) is modelled by explicit comparison with `0`;
  optional config fields of the component are `Option` values so that
  the `x || default` defaulting (which also maps `0` to the default) is
  reproduced exactly.
* `Math.random`/`Date.now` based id generation is abstracted into a
  caller-supplied `genId : Nat → String` (index of the candidate inside
  the batch ↦ id).  No claim below depends on the id values.
* Error messages built with template strings are abstracted into
  inductive error values tagged with the data interpolated into the
  message (file name, limit); `formatFileSize` (floating point display
  formatting only) is not modelled.
* `btoa` throws an `InvalidCharacterError` on any UTF-16 code unit
  above `0xFF`; a synchronous throw inside a `new Promise` executor
  rejects the promise.  `btoa` is therefore `Option`-valued and preview
  generation `Option`-valued, with `none` meaning "the returned promise
  rejects".
-/

namespace FileUploadLib

/-- A browser `File` as seen by the upload logic: `name`, `size` in
bytes, MIME `type`, and the blob's bytes (only read by preview
generation). -/
structure JsFile where
  name : String
  size : Nat
  type : String
  content : List Nat
deriving DecidableEq, Repr

/-!
JavaScript string primitives, implemented on character lists by
structural recursion so that concrete runs reduce inside the kernel
(Lean's own `String.splitOn`, `startsWith`, … use well-founded
recursion over byte positions and do not). -/

/-- `s.startsWith(pre)`. -/
def strStartsWith (s pre : String) : Bool :=
  List.isPrefixOf pre.data s.data

/-- `s.endsWith(suf)`. -/
def strEndsWith (s suf : String) : Bool :=
  List.isSuffixOf suf.data s.data

/-- `s.toLowerCase()` (ASCII range, which covers the source's
patterns and names). -/
def strToLower (s : String) : String :=
  String.mk (s.data.map Char.toLower)

/-- `s.trim()` on the whitespace the source can contain. -/
def strTrim (s : String) : String :=
  String.mk (((s.data.dropWhile Char.isWhitespace).reverse.dropWhile
    Char.isWhitespace).reverse)

/-- `s.split(sep)` for a one-character separator (the source only
splits on `","`). -/
def splitChar (sep : Char) : List Char → List (List Char)
  | [] => [[]]
  | c :: rest =>
      let r := splitChar sep rest
      if c == sep then [] :: r
      else
        match r with
        | [] => [[c]]
        | h :: t => (c :: h) :: t

/-- Remove the first occurrence of `pat` from `l`, keeping the rest
verbatim (the behaviour of JavaScript `replace(pat, "")` with a string
pattern, which replaces only the first occurrence). -/
def replaceFirstAux (pat : List Char) : List Char → List Char
  | [] => []
  | c :: rest =>
      if List.isPrefixOf pat (c :: rest) && !pat.isEmpty then
        (c :: rest).drop pat.length
      else
        c :: replaceFirstAux pat rest

/-- JavaScript `s.replace(pat, "")`. -/
def replaceFirst (s pat : String) : String :=
  String.mk (replaceFirstAux pat.data s.data)

/-! ### Base64 (`btoa`, `FileReader.readAsDataURL` payload) -/

/-- The standard base64 alphabet. -/
def b64Alphabet : List Char :=
  "ABCDEFGHIJKLMNOPQRSTUVWXYZabcdefghijklmnopqrstuvwxyz0123456789+/".toList

/-- Character for a 6-bit group. -/
def b64Char (n : Nat) : Char := b64Alphabet.getD n '?'

/-- Position of a character in the base64 alphabet. -/
def b64Index (c : Char) : Nat := b64Alphabet.indexOf c

/-- Standard base64 encoding of a byte sequence, with `=` padding. -/
def b64EncodeBytes : List Nat → List Char
  | [] => []
  | [b1] =>
      [b64Char (b1 / 4), b64Char (b1 % 4 * 16), '=', '=']
  | [b1, b2] =>
      [b64Char (b1 / 4), b64Char (b1 % 4 * 16 + b2 / 16), b64Char (b2 % 16 * 4), '=']
  | b1 :: b2 :: b3 :: rest =>
      b64Char (b1 / 4) :: b64Char (b1 % 4 * 16 + b2 / 16) ::
      b64Char (b2 % 16 * 4 + b3 / 64) :: b64Char (b3 % 64) :: b64EncodeBytes rest

/-- Base64 decoding (used only to state that the encoding in a preview
data-URI really is a faithful representation of the bytes). -/
def b64DecodeChars : List Char → List Nat
  | c1 :: c2 :: c3 :: c4 :: rest =>
      if c3 = '=' then
        [b64Index c1 * 4 + b64Index c2 / 16]
      else if c4 = '=' then
        [b64Index c1 * 4 + b64Index c2 / 16,
         b64Index c2 % 16 * 16 + b64Index c3 / 4]
      else
        (b64Index c1 * 4 + b64Index c2 / 16) ::
        (b64Index c2 % 16 * 16 + b64Index c3 / 4) ::
        (b64Index c3 % 4 * 64 + b64Index c4) ::
        b64DecodeChars rest
  | _ => []

/-- Base64 text for a byte list. -/
def base64Encode (bs : List Nat) : String := String.mk (b64EncodeBytes bs)

/-- Base64 text back to bytes. -/
def base64Decode (s : String) : List Nat := b64DecodeChars s.data

/-- The UTF-16 code units of a JS string whose characters are all in
the basic range; for Latin-1 text these are the character codes. -/
def strBytes (s : String) : List Nat := s.data.map Char.toNat

/-- `window.btoa`: base64 of a Latin-1 string.  Throws (here: `none`)
when some code unit exceeds `0xFF`. -/
def btoa (s : String) : Option String :=
  if s.data.all (fun c => c.toNat ≤ 255) then some (base64Encode (strBytes s))
  else none

/-! ### The `useFileUpload` hook (`src/hooks/use-file-upload.ts`) -/

/-- The hook's options after destructuring with defaults
(`accept = "*/*"`, `multiple = false`, `maxFiles = 10`,
`maxSize = 10 * 1024 * 1024`, `minSize = 0`).  The destructuring
defaults apply only to `undefined`, so a caller-supplied `0` stays `0`
and the fields are plain values here. -/
structure UseFileUploadOptions where
  accept : String := "*/*"
  multiple : Bool := false
  maxFiles : Nat := 10
  maxSize : Nat := 10 * 1024 * 1024
  minSize : Nat := 0
deriving DecidableEq, Repr

/-- `FileWithPreview` of the hook: generated `id`, the `File`, and the
preview data-URI string. -/
structure FileWithPreview where
  id : String
  file : JsFile
  preview : String
deriving DecidableEq, Repr

/-- The rejection reasons the hook can produce.  In the source each is
a human-readable template string; the constructors carry the data
interpolated into the message. -/
inductive HookError where
  | tooLarge (name : String)
  | tooSmall (name : String)
  | unsupportedType (name : String)
  | uploadFailed (msg : String)
deriving DecidableEq, Repr

/-- One entry of the hook's accepted-type test
(`acceptedTypes.some(...)`): a pattern ending in `/*` tests
`file.type.startsWith(type.replace("/*", ""))`; any other pattern
tests `file.type === type`. -/
def hookTypeMatch (f : JsFile) (t : String) : Bool :=
  if strEndsWith t "/*" then strStartsWith f.type (replaceFirst t "/*")
  else f.type == t

/-- `accept.split(",").map(type => type.trim())`. -/
def acceptedTypesOf (accept : String) : List String :=
  (splitChar ',' accept.data).map fun cs => strTrim (String.mk cs)

/-- The hook's `validateFile`: size upper bound (skipped when
`maxSize` is falsy, i.e. `0`), then size lower bound (skipped when
`minSize` is falsy), then — unless `accept === "*/*"` — the type test;
`null` (`none`) means accepted. -/
def validateFile (o : UseFileUploadOptions) (f : JsFile) : Option HookError :=
  if o.maxSize ≠ 0 ∧ f.size > o.maxSize then some (HookError.tooLarge f.name)
  else if o.minSize ≠ 0 ∧ f.size < o.minSize then some (HookError.tooSmall f.name)
  else if o.accept ≠ "*/*" then
    if (acceptedTypesOf o.accept).any (hookTypeMatch f) then none
    else some (HookError.unsupportedType f.name)
  else none

/-- The hook's `createFilePreview`: for an `image/…` file the promise
resolves with `FileReader.readAsDataURL`'s result
(`data:<type>;base64,<bytes>`); otherwise it resolves with
`"data:text/plain;base64," + btoa(file.name)`.  `btoa` throws on a
non-Latin-1 name; a synchronous throw inside the `new Promise`
executor rejects the promise, which is the `none` result. -/
def createFilePreview (id : String) (f : JsFile) : Option FileWithPreview :=
  if strStartsWith f.type "image/" then
    some { id := id, file := f,
           preview := "data:" ++ f.type ++ ";base64," ++ base64Encode f.content }
  else
    (btoa f.name).map fun b =>
      { id := id, file := f, preview := "data:text/plain;base64," ++ b }

/-- `true` exactly when `createFilePreview`'s promise resolves: the
file is an image, or its name is Latin-1 so `btoa` succeeds. -/
def previewOk (f : JsFile) : Bool :=
  strStartsWith f.type "image/" || f.name.data.all (fun c => c.toNat ≤ 255)

/-- The record `createFilePreview` resolves with when it does resolve
(used to state results; `createFilePreview_eq_some` ties it to
`createFilePreview`). -/
def previewRecord (id : String) (f : JsFile) : FileWithPreview :=
  { id := id, file := f,
    preview :=
      if strStartsWith f.type "image/" then
        "data:" ++ f.type ++ ";base64," ++ base64Encode f.content
      else
        "data:text/plain;base64," ++ base64Encode (strBytes f.name) }

/-- `Promise.all` seen as a pure gather: `some` list exactly when every
entry is `some`. -/
def sequenceOptions {α : Type} : List (Option α) → Option (List α)
  | [] => some []
  | none :: _ => none
  | some v :: rest => (sequenceOptions rest).map (v :: ·)

/-- The hook's visible state: `files`, `isUploading`, `uploadProgress`,
plus the chronological list of errors handed to the `onError`
callback (the hook's error surface). -/
structure HookState where
  files : List FileWithPreview
  isUploading : Bool
  uploadProgress : Nat
  reported : List HookError
deriving DecidableEq, Repr

/-- Hook state before any interaction. -/
def initialHookState : HookState :=
  { files := [], isUploading := false, uploadProgress := 0, reported := [] }

/-- Preview tasks for the accepted files of one batch, one per file in
input order (`validFiles.map(createFilePreview)` under `Promise.all`). -/
def previewTasks (genId : Nat → String) (validFiles : List JsFile) :
    List (Option FileWithPreview) :=
  validFiles.enum.map fun p => createFilePreview (genId p.1) p.2

/-- The hook's `handleFiles` for one call, as a state transformer.

* `genId` abstracts the per-file random id.
* `uploadOutcome`: `none` when no `onUpload` is configured; otherwise
  the result of awaiting `onUpload` (`Except.ok` success /
  `Except.error msg` rejection).
* Validation errors are pushed and reported through `onError` before
  the preview await; if some preview promise rejects, `Promise.all`
  rejects and the async function aborts before `setFiles`, so the
  observable state keeps the prior `files` (the `reported` list keeps
  the validation errors already surfaced).
* On upload success the function ends with `uploadProgress = 100` and
  `isUploading = true`; the scheduled 500 ms timeout that later resets
  them is outside the call and not modelled.
* On upload rejection the `catch` block resets `isUploading` and
  `uploadProgress` and surfaces the message via `onError`. -/
def handleFiles (o : UseFileUploadOptions) (genId : Nat → String)
    (uploadOutcome : Option (Except String Unit)) (st : HookState)
    (selectedFiles : List JsFile) : HookState :=
  let validFiles := selectedFiles.filter fun f => (validateFile o f).isNone
  let errors := selectedFiles.filterMap (validateFile o)
  let st1 : HookState := { st with reported := st.reported ++ errors }
  if validFiles.length > 0 then
    match sequenceOptions (previewTasks genId validFiles) with
    | none => st1
    | some filesWithPreviews =>
      let newFiles := if o.multiple then st1.files ++ filesWithPreviews
                      else filesWithPreviews
      let finalFiles := newFiles.take o.maxFiles
      let st2 : HookState := { st1 with files := finalFiles }
      match uploadOutcome with
      | none => st2
      | some (Except.ok _) => { st2 with isUploading := true, uploadProgress := 100 }
      | some (Except.error msg) =>
          { st2 with
              isUploading := false
              uploadProgress := 0
              reported := st2.reported ++ [HookError.uploadFailed msg] }
  else st1

/-- The hook's `removeFile`: drop the record with the given id. -/
def removeFile (st : HookState) (id : String) : HookState :=
  { st with files := st.files.filter fun f => f.id != id }

/-- The hook's `clearFiles`. -/
def clearFiles (st : HookState) : HookState :=
  { st with files := [], isUploading := false, uploadProgress := 0 }

/-- One user-visible mutation of the hook. -/
inductive HookOp where
  | add (genId : Nat → String) (uploadOutcome : Option (Except String Unit))
      (batch : List JsFile)
  | remove (id : String)
  | clear

/-- Apply one mutation. -/
def applyHookOp (o : UseFileUploadOptions) (st : HookState) : HookOp → HookState
  | HookOp.add genId outcome batch => handleFiles o genId outcome st batch
  | HookOp.remove id => removeFile st id
  | HookOp.clear => clearFiles st

/-- Run a sequence of mutations from the initial state. -/
def runHookOps (o : UseFileUploadOptions) (ops : List HookOp) : HookState :=
  ops.foldl (applyHookOp o) initialHookState

/-! ### The `FileUploader` component's multi-file branch -/

/-- The component config fields used by `handleMultipleFiles`.
`Option` models a field that may be absent (or made `undefined`) after
the `{...defaultConfig, ...config}` merge; the `x || d` reads then
default both `none` and `0`. -/
structure CompConfig where
  maxFileSizeMB : Option Nat := some 10
  acceptedFileTypes : Option String := some "image/*"
  maxFiles : Option Nat := some 6
deriving DecidableEq, Repr

/-- `mergedConfig.maxFiles || 6`. -/
def effMaxFiles (cfg : CompConfig) : Nat :=
  match cfg.maxFiles with
  | none => 6
  | some 0 => 6
  | some n => n

/-- `(mergedConfig.maxFileSizeMB || 10) * 1024 * 1024`. -/
def effMaxSizeBytes (cfg : CompConfig) : Nat :=
  (match cfg.maxFileSizeMB with
   | none => 10
   | some 0 => 10
   | some n => n) * 1024 * 1024

/-- A `FileItem` of the component.  `preview` is
`URL.createObjectURL(file)`, modelled as an opaque string derived from
the generated id. -/
structure FileItem where
  id : String
  file : JsFile
  preview : String
  name : String
  size : Nat
  type : String
deriving DecidableEq, Repr

/-- Build the `FileItem` pushed for an accepted candidate; `id`
abstracts `` `${file.name}-${Date.now()}-${Math.random()}` ``. -/
def mkFileItem (id : String) (f : JsFile) : FileItem :=
  { id := id, file := f, preview := "blob:" ++ id,
    name := f.name, size := f.size, type := f.type }

/-- The component's rejection messages, abstracted with the data
interpolated into each template string. -/
inductive CompError where
  | sizeExceeds (name : String)
  | maxFilesReached (maxFiles : Nat)
  | notAccepted (name : String)
deriving DecidableEq, Repr

/-- One entry of the component's accepted-type test: `/*` patterns as
in the hook; any other pattern also matches when the lowercased file
name ends with the pattern minus its first `.`. -/
def compTypeMatch (f : JsFile) (t : String) : Bool :=
  if strEndsWith t "/*" then strStartsWith f.type (replaceFirst t "/*")
  else f.type == t || strEndsWith (strToLower f.name) (replaceFirst t ".")

/-- The component's type gate: the check body runs only when
`acceptedFileTypes` is truthy and not `"*/*"`. -/
def compTypeOk (cfg : CompConfig) (f : JsFile) : Bool :=
  match cfg.acceptedFileTypes with
  | none => true
  | some s =>
      if s == "" || s == "*/*" then true
      else ((splitChar ',' s.data).map fun cs => strTrim (String.mk cs)).any
        (compTypeMatch f)

/-- The per-candidate checks of `handleMultipleFiles`, in source
order: size, then capacity (against the snapshot length plus the
accepted-so-far count of this call), then type; the first failing
check wins. -/
def compCheckFile (cfg : CompConfig) (existingCount acceptedSoFar : Nat)
    (f : JsFile) : Option CompError :=
  if f.size > effMaxSizeBytes cfg then some (CompError.sizeExceeds f.name)
  else if existingCount + acceptedSoFar ≥ effMaxFiles cfg then
    some (CompError.maxFilesReached (effMaxFiles cfg))
  else if compTypeOk cfg f then none
  else some (CompError.notAccepted f.name)

/-- Multi-file state of the component: the `files` and `errors`
`useState` pair. -/
structure CompState where
  files : List FileItem
  errors : List CompError
deriving DecidableEq, Repr

/-- Initial multi-file state. -/
def initialCompState : CompState := { files := [], errors := [] }

/-- The `forEach` body of `handleMultipleFiles`, folded over the batch
with its index (for id generation). -/
def handleMultipleFilesStep (cfg : CompConfig) (existingCount : Nat)
    (genId : Nat → String) (acc : List FileItem × List CompError)
    (p : Nat × JsFile) : List FileItem × List CompError :=
  match compCheckFile cfg existingCount acc.1.length p.2 with
  | some e => (acc.1, acc.2 ++ [e])
  | none => (acc.1 ++ [mkFileItem (genId p.1) p.2], acc.2)

/-- The component's `handleMultipleFiles`: validate each candidate in
input order, append the accepted items to the files, and *replace* the
error list with this batch's errors. -/
def handleMultipleFiles (cfg : CompConfig) (genId : Nat → String)
    (st : CompState) (newFiles : List JsFile) : CompState :=
  let res := newFiles.enum.foldl
    (handleMultipleFilesStep cfg st.files.length genId) ([], [])
  { files := st.files ++ res.1, errors := res.2 }

/-- The component's `removeFile` (it also revokes the removed item's
object URL; resource accounting is not needed by the claims). -/
def compRemoveFile (st : CompState) (fileId : String) : CompState :=
  { st with files := st.files.filter fun f => f.id != fileId }

/-- One mutation of the component's multi-file state. -/
inductive CompOp where
  | add (genId : Nat → String) (batch : List JsFile)
  | remove (id : String)

/-- Apply one component mutation. -/
def applyCompOp (cfg : CompConfig) (st : CompState) : CompOp → CompState
  | CompOp.add genId batch => handleMultipleFiles cfg genId st batch
  | CompOp.remove id => compRemoveFile st id

/-- Run a sequence of component mutations from the initial state. -/
def runCompOps (cfg : CompConfig) (ops : List CompOp) : CompState :=
  ops.foldl (applyCompOp cfg) initialCompState

/-! ### Asynchronous completion model for one batch's previews -/

/-- `Promise.all`'s result array, filled as the individual promises
settle: `order` lists the indices of the tasks in the order in which
they complete; each completion writes its value into its own slot. -/
def fillSlots {α : Type} (vals : List α) (order : List Nat) : List (Option α) :=
  order.foldl
    (fun slots i =>
      match vals[i]? with
      | some v => slots.set i (some v)
      | none => slots)
    (List.replicate vals.length none)

/-- `handleFiles` with the preview completion order made explicit:
the batch is committed only once every slot of the `Promise.all`
gather is filled (`none` = some preview never completed, so the call
never resolves).  Used to state that the committed order does not
depend on the completion order. -/
def handleFilesWithSchedule (o : UseFileUploadOptions) (genId : Nat → String)
    (uploadOutcome : Option (Except String Unit)) (st : HookState)
    (selectedFiles : List JsFile) (order : List Nat) : Option HookState :=
  let validFiles := selectedFiles.filter fun f => (validateFile o f).isNone
  let errors := selectedFiles.filterMap (validateFile o)
  let st1 : HookState := { st with reported := st.reported ++ errors }
  if validFiles.length > 0 then
    match sequenceOptions (previewTasks genId validFiles) with
    | none => some st1
    | some previews =>
      match sequenceOptions (fillSlots previews order) with
      | none => none
      | some filesWithPreviews =>
        let newFiles := if o.multiple then st1.files ++ filesWithPreviews
                        else filesWithPreviews
        let finalFiles := newFiles.take o.maxFiles
        let st2 : HookState := { st1 with files := finalFiles }
        match uploadOutcome with
        | none => some st2
        | some (Except.ok _) =>
            some { st2 with isUploading := true, uploadProgress := 100 }
        | some (Except.error msg) =>
            some { st2 with
                    isUploading := false
                    uploadProgress := 0
                    reported := st2.reported ++ [HookError.uploadFailed msg] }
  else some st1

/-! ### The type-matching rule in the spec's words (for comparison) -/

/-- Modelled from the spec: the file extension "derived by taking the
substring after the last `.` in `name`" (empty when the name has no
dot). -/
def extAfterLastDot (name : String) : String :=
  match splitChar '.' name.data with
  | [] => ""
  | [_] => ""
  | p :: ps => String.mk ((p :: ps).getLast (by simp))

/-- Modelled from the spec: one pattern of the claimed type-matching
rule — `/*` patterns by MIME prefix, `.` patterns by the extension
after the last dot compared case-insensitively, anything else by
verbatim MIME equality. -/
def specPatternMatches (f : JsFile) (t : String) : Bool :=
  if strEndsWith t "/*" then strStartsWith f.type (replaceFirst t "/*")
  else if strStartsWith t "." then
    strToLower (extAfterLastDot f.name) == strToLower (String.mk (t.data.drop 1))
  else f.type == t

/-! ### Concrete fixtures for counterexamples and witnesses -/

/-- A deterministic id supply standing in for `Math.random`. -/
def gidA : Nat → String := fun i => "id" ++ toString i

/-- A small valid PNG candidate with the given name. -/
def pngFile (n : String) : JsFile :=
  { name := n, size := 100, type := "image/png", content := [] }

def pdfFile : JsFile :=
  { name := "doc.pdf", size := 100, type := "application/pdf", content := [] }

/-- A candidate whose name ends in `xpng` (extension `xpng`, not
`png`) and whose MIME type is empty. -/
def xpngFile : JsFile :=
  { name := "archive.xpng", size := 100, type := "", content := [] }

/-- A non-image candidate whose name contains a character above
`U+00FF`, so `btoa(file.name)` throws. -/
def smileyFile : JsFile :=
  { name := "☺", size := 1, type := "text/plain", content := [] }

/-- An image candidate with nonempty bytes. -/
def imgBytesFile : JsFile :=
  { name := "p.png", size := 3, type := "image/png", content := [1, 2, 3] }

def txtFile : JsFile :=
  { name := "note.txt", size := 4, type := "text/plain", content := [] }

def hugeFile : JsFile :=
  { name := "huge.bin", size := 1000000000, type := "", content := [] }

def batch5 : List JsFile :=
  [pngFile "a.png", pngFile "b.png", pngFile "c.png", pngFile "d.png",
   pngFile "e.png"]

def batch3 : List JsFile :=
  [pngFile "a.png", pngFile "b.png", pngFile "c.png"]

def oMulti3 : UseFileUploadOptions :=
  { accept := "*/*", multiple := true, maxFiles := 3 }

/-- The hook's options with every default. -/
def oDefaultOpts : UseFileUploadOptions := {}

def oOne : UseFileUploadOptions :=
  { accept := "*/*", multiple := true, maxFiles := 1 }

def oImg : UseFileUploadOptions := { accept := "image/*" }

/-- Options with both size bounds set to `0`. -/
def oZero : UseFileUploadOptions :=
  { accept := "*/*", maxSize := 0, minSize := 0 }

/-- A hook state already holding one accepted record `A`. -/
def stWithA : HookState :=
  { files := [previewRecord "idA" (pngFile "a.png")], isUploading := false,
    uploadProgress := 0, reported := [] }

def cfgAll3 : CompConfig :=
  { maxFileSizeMB := some 10, acceptedFileTypes := some "*/*", maxFiles := some 3 }

def cfgPng : CompConfig :=
  { maxFileSizeMB := some 10, acceptedFileTypes := some ".png", maxFiles := some 6 }

def cfgImgOne : CompConfig :=
  { maxFileSizeMB := some 1, acceptedFileTypes := some "image/*", maxFiles := some 1 }

/-- A component state with a stale error from an earlier batch. -/
def stErrComp : CompState :=
  { files := [], errors := [CompError.notAccepted "old.bin"] }

end FileUploadLib

/-! ## Theorems -/

namespace FileUploadLib

theorem b64Index_b64Char : ∀ v, v < 64 → b64Index (b64Char v) = v := by decide

theorem b64Char_ne_pad : ∀ v, v < 64 → b64Char v ≠ '=' := by decide

/-- Base64 round-trip: decoding the encoding of a byte sequence gives
the bytes back. -/
theorem b64_roundtrip : ∀ bs : List Nat, (∀ b ∈ bs, b < 256) →
    b64DecodeChars (b64EncodeBytes bs) = bs := by
  intro bs
  induction bs using b64EncodeBytes.induct with
  | case1 =>
      intro _; rfl
  | case2 b1 =>
      intro h
      have hb1 : b1 < 256 := h b1 (by simp)
      simp only [b64EncodeBytes, b64DecodeChars]
      rw [if_pos trivial]
      rw [b64Index_b64Char _ (by omega), b64Index_b64Char _ (by omega)]
      congr 1
      omega
  | case3 b1 b2 =>
      intro h
      have hb1 : b1 < 256 := h b1 (by simp)
      have hb2 : b2 < 256 := h b2 (by simp)
      simp only [b64EncodeBytes, b64DecodeChars]
      rw [if_neg (b64Char_ne_pad _ (by omega)), if_pos trivial]
      rw [b64Index_b64Char _ (by omega), b64Index_b64Char _ (by omega),
        b64Index_b64Char _ (by omega)]
      simp only [List.cons.injEq]
      refine ⟨by omega, by omega, trivial⟩
  | case4 b1 b2 b3 rest ih =>
      intro h
      have hb1 : b1 < 256 := h b1 (by simp)
      have hb2 : b2 < 256 := h b2 (by simp)
      have hb3 : b3 < 256 := h b3 (by simp)
      have hrest : ∀ b ∈ rest, b < 256 := fun b hb => h b (by simp [hb])
      simp only [b64EncodeBytes, b64DecodeChars]
      rw [if_neg (b64Char_ne_pad _ (by omega)), if_neg (b64Char_ne_pad _ (by omega))]
      rw [b64Index_b64Char _ (by omega), b64Index_b64Char _ (by omega),
        b64Index_b64Char _ (by omega), b64Index_b64Char _ (by omega)]
      rw [ih hrest]
      simp only [List.cons.injEq]
      refine ⟨by omega, by omega, by omega, trivial⟩

theorem createFilePreview_eq_some (id : String) (f : JsFile)
    (h : previewOk f = true) :
    createFilePreview id f = some (previewRecord id f) := by
  by_cases himg : strStartsWith f.type "image/" = true
  · simp [createFilePreview, previewRecord, himg]
  · have hlat : f.name.data.all (fun c => c.toNat ≤ 255) = true := by
      unfold previewOk at h
      simpa [himg] using h
    simp [createFilePreview, previewRecord, btoa, himg, hlat]

/-! ### Helper lemmas about the asynchronous gather -/

theorem sequenceOptions_map_some {α : Type} (l : List α) :
    sequenceOptions (l.map some) = some l := by
  induction l with
  | nil => rfl
  | cons x xs ih => simp [sequenceOptions, ih]

theorem fillSlots_foldl_getElem {α : Type} (vals : List α) :
    ∀ (order : List Nat) (init : List (Option α)),
      init.length = vals.length → ∀ j,
      (order.foldl
        (fun slots i =>
          match vals[i]? with
          | some v => slots.set i (some v)
          | none => slots) init)[j]? =
        if j ∈ order then Option.map some vals[j]? else init[j]? := by
  intro order
  induction order with
  | nil => intro init _ j; simp
  | cons i rest ih =>
      intro init hlen j
      have hlen' : (match vals[i]? with
          | some v => init.set i (some v)
          | none => init).length = vals.length := by
        cases hv : vals[i]? <;> simp [hlen]
      rw [List.foldl_cons, ih _ hlen' j]
      by_cases hjr : j ∈ rest
      · simp [hjr]
      · simp only [hjr, if_false, List.mem_cons, or_false]
        by_cases hji : j = i
        · subst hji
          cases hv : vals[j]? with
          | none =>
              have hlj : vals.length ≤ j := by
                by_contra hc
                push_neg at hc
                rw [List.getElem?_eq_getElem hc] at hv
                exact Option.noConfusion hv
              have hinit : init[j]? = none := List.getElem?_eq_none (by omega)
              simp [hv, hinit]
          | some v =>
              have hjlt : j < init.length := by
                rw [hlen]
                exact (List.getElem?_eq_some_iff.mp hv).1
              simp [hv, List.getElem?_set_self hjlt]
        · have : ¬(j = i ∨ j ∈ rest) := by tauto
          cases hv : vals[i]? with
          | none => simp [hji, hjr, hv]
          | some v => simp [hji, hjr, hv, List.getElem?_set_ne (Ne.symm hji)]

/-- Whatever order the individual promises complete in, once every
index has completed the gathered array holds the values at their own
indices. -/
theorem fillSlots_covers {α : Type} (vals : List α) (order : List Nat)
    (hcov : ∀ j, j < vals.length → j ∈ order) :
    fillSlots vals order = vals.map some := by
  apply List.ext_getElem?
  intro n
  unfold fillSlots
  rw [fillSlots_foldl_getElem vals order _ (by simp) n]
  by_cases hn : n < vals.length
  · simp [hcov n hn, List.getElem?_map]
  · have h1 : vals[n]? = none := List.getElem?_eq_none (by omega)
    by_cases hmem : n ∈ order <;>
      simp [hmem, h1, List.getElem?_map, List.getElem?_replicate, hn]

theorem sequenceOptions_fillSlots {α : Type} (vals : List α) (order : List Nat)
    (hcov : ∀ j, j < vals.length → j ∈ order) :
    sequenceOptions (fillSlots vals order) = some vals := by
  rw [fillSlots_covers vals order hcov, sequenceOptions_map_some]

/-! ### Helper lemmas about one batch's previews and validation -/

theorem previewTasks_enumFrom (genId : Nat → String) :
    ∀ (l : List JsFile) (k : Nat), (∀ f ∈ l, previewOk f = true) →
      sequenceOptions ((List.enumFrom k l).map
          fun p => createFilePreview (genId p.1) p.2) =
        some ((List.enumFrom k l).map fun p => previewRecord (genId p.1) p.2) := by
  intro l
  induction l with
  | nil => intro k _; rfl
  | cons f fs ih =>
      intro k h
      have hf : previewOk f = true := h f (by simp)
      have hfs : ∀ g ∈ fs, previewOk g = true := fun g hg => h g (by simp [hg])
      simp only [List.enumFrom, List.map_cons]
      rw [createFilePreview_eq_some _ _ hf]
      simp only [sequenceOptions, ih (k + 1) hfs, Option.map_some']

theorem previewTasks_eq_some (genId : Nat → String) (l : List JsFile)
    (h : ∀ f ∈ l, previewOk f = true) :
    sequenceOptions (previewTasks genId l) =
      some ((List.enumFrom 0 l).map fun p => previewRecord (genId p.1) p.2) := by
  unfold previewTasks
  rw [show l.enum = List.enumFrom 0 l from rfl]
  exact previewTasks_enumFrom genId l 0 h

theorem filter_valid_of_all_valid (o : UseFileUploadOptions) (l : List JsFile)
    (h : ∀ f ∈ l, validateFile o f = none) :
    l.filter (fun f => (validateFile o f).isNone) = l := by
  rw [List.filter_eq_self]
  intro f hf
  simp [h f hf]

theorem filterMap_nil_of_all_valid (o : UseFileUploadOptions) (l : List JsFile)
    (h : ∀ f ∈ l, validateFile o f = none) :
    l.filterMap (validateFile o) = [] := by
  rw [List.filterMap_eq_nil_iff]
  exact h

/-! ### Characterizations of one `handleFiles` call -/

/-- When some candidate is accepted and every preview promise
resolves, the committed `files` are the previews of the accepted
candidates in input order, appended to the prior files exactly when
`multiple` is on, truncated to `maxFiles` — independent of the upload
outcome. -/
theorem handleFiles_files_success (o : UseFileUploadOptions)
    (genId : Nat → String) (outcome : Option (Except String Unit))
    (st : HookState) (batch : List JsFile)
    (hex : ∃ f ∈ batch, validateFile o f = none)
    (hp : ∀ f ∈ batch, previewOk f = true) :
    (handleFiles o genId outcome st batch).files =
      ((if o.multiple then st.files else []) ++
        (List.enumFrom 0 (batch.filter fun f => (validateFile o f).isNone)).map
          (fun p => previewRecord (genId p.1) p.2)).take o.maxFiles := by
  obtain ⟨f0, hf0, hv0⟩ := hex
  have hmem : f0 ∈ batch.filter fun f => (validateFile o f).isNone :=
    List.mem_filter.mpr ⟨hf0, by simp [hv0]⟩
  have hpos : 0 < (batch.filter fun f => (validateFile o f).isNone).length :=
    List.length_pos.mpr (List.ne_nil_of_mem hmem)
  have hpfilter : ∀ f ∈ batch.filter (fun f => (validateFile o f).isNone),
      previewOk f = true :=
    fun f hf => hp f (List.mem_filter.mp hf).1
  have hseq := previewTasks_eq_some genId _ hpfilter
  cases hm : o.multiple with
  | false =>
      cases outcome with
      | none => simp [handleFiles, hpos, hseq, hm]
      | some r => cases r <;> simp [handleFiles, hpos, hseq, hm]
  | true =>
      cases outcome with
      | none => simp [handleFiles, hpos, hseq, hm]
      | some r => cases r <;> simp [handleFiles, hpos, hseq, hm]

/-- With no upload configured, one `handleFiles` call appends exactly
the batch's validation errors to the reported-error log, whatever else
happens. -/
theorem handleFiles_reported_no_upload (o : UseFileUploadOptions)
    (genId : Nat → String) (st : HookState) (batch : List JsFile) :
    (handleFiles o genId none st batch).reported =
      st.reported ++ batch.filterMap (validateFile o) := by
  by_cases hpos : 0 < (batch.filter fun f => (validateFile o f).isNone).length
  · cases hseq : sequenceOptions (previewTasks genId
        (batch.filter fun f => (validateFile o f).isNone)) with
    | none => simp [handleFiles, hpos, hseq]
    | some ps => simp [handleFiles, hpos, hseq]
  · simp [handleFiles, hpos]

/-- Any `handleFiles` call leaves `files.length ≤ maxFiles` when it
held before (the truncation step). -/
theorem handleFiles_length_le (o : UseFileUploadOptions)
    (genId : Nat → String) (outcome : Option (Except String Unit))
    (st : HookState) (batch : List JsFile)
    (h : st.files.length ≤ o.maxFiles) :
    (handleFiles o genId outcome st batch).files.length ≤ o.maxFiles := by
  by_cases hpos : 0 < (batch.filter fun f => (validateFile o f).isNone).length
  · cases hseq : sequenceOptions (previewTasks genId
        (batch.filter fun f => (validateFile o f).isNone)) with
    | none => simpa [handleFiles, hpos, hseq] using h
    | some ps =>
        cases outcome with
        | none => simp [handleFiles, hpos, hseq, List.length_take]
        | some r =>
            cases r <;> simp [handleFiles, hpos, hseq, List.length_take]
  · simpa [handleFiles, hpos] using h

/-! ### Helper lemmas about `handleMultipleFiles` -/

/-- A candidate can only be accepted while the snapshot length plus
the accepted-so-far count is still below the (defaulted) maximum. -/
theorem compCheckFile_none_lt (cfg : CompConfig) (E s : Nat) (f : JsFile)
    (h : compCheckFile cfg E s f = none) : E + s < effMaxFiles cfg := by
  unfold compCheckFile at h
  split at h
  · exact Option.noConfusion h
  · split at h
    · exact Option.noConfusion h
    · rename_i hcap
      omega

theorem compFold_length_le (cfg : CompConfig) (E : Nat) (genId : Nat → String) :
    ∀ (batch : List (Nat × JsFile)) (acc : List FileItem × List CompError),
      E + acc.1.length ≤ effMaxFiles cfg →
      E + (batch.foldl (handleMultipleFilesStep cfg E genId) acc).1.length ≤
        effMaxFiles cfg := by
  intro batch
  induction batch with
  | nil => intro acc h; simpa using h
  | cons p rest ih =>
      intro acc h
      rw [List.foldl_cons]
      apply ih
      unfold handleMultipleFilesStep
      cases hc : compCheckFile cfg E acc.1.length p.2 with
      | some e => simpa using h
      | none =>
          have := compCheckFile_none_lt cfg E acc.1.length p.2 hc
          simp only [List.length_append, List.length_cons, List.length_nil]
          omega

/-- Each candidate of a batch contributes exactly one item or exactly
one error. -/
theorem compFold_count (cfg : CompConfig) (E : Nat) (genId : Nat → String) :
    ∀ (batch : List (Nat × JsFile)) (acc : List FileItem × List CompError),
      (batch.foldl (handleMultipleFilesStep cfg E genId) acc).1.length +
        (batch.foldl (handleMultipleFilesStep cfg E genId) acc).2.length =
      acc.1.length + acc.2.length + batch.length := by
  intro batch
  induction batch with
  | nil => intro acc; simp
  | cons p rest ih =>
      intro acc
      rw [List.foldl_cons, ih]
      unfold handleMultipleFilesStep
      cases hc : compCheckFile cfg E acc.1.length p.2 <;> simp <;> omega

/-- One `handleMultipleFiles` call keeps `files.length ≤ maxFiles`
(the defaulted `maxFiles || 6`) when it held before. -/
theorem handleMultipleFiles_length_le (cfg : CompConfig) (genId : Nat → String)
    (st : CompState) (batch : List JsFile)
    (h : st.files.length ≤ effMaxFiles cfg) :
    (handleMultipleFiles cfg genId st batch).files.length ≤ effMaxFiles cfg := by
  unfold handleMultipleFiles
  simp only [List.length_append]
  have := compFold_length_le cfg st.files.length genId batch.enum ([], [])
    (by simpa using h)
  omega

/-! ### Capacity invariant over whole operation sequences -/

theorem hookOps_invariant (o : UseFileUploadOptions) :
    ∀ (ops : List HookOp) (st : HookState),
      st.files.length ≤ o.maxFiles →
      (ops.foldl (applyHookOp o) st).files.length ≤ o.maxFiles := by
  intro ops
  induction ops with
  | nil => intro st h; simpa using h
  | cons op rest ih =>
      intro st h
      rw [List.foldl_cons]
      apply ih
      cases op with
      | add genId outcome batch =>
          exact handleFiles_length_le o genId outcome st batch h
      | remove id =>
          calc (applyHookOp o st (HookOp.remove id)).files.length
              ≤ st.files.length := List.length_filter_le _ _
            _ ≤ o.maxFiles := h
      | clear => simp [applyHookOp, clearFiles]

theorem compOps_invariant (cfg : CompConfig) :
    ∀ (ops : List CompOp) (st : CompState),
      st.files.length ≤ effMaxFiles cfg →
      (ops.foldl (applyCompOp cfg) st).files.length ≤ effMaxFiles cfg := by
  intro ops
  induction ops with
  | nil => intro st h; simpa using h
  | cons op rest ih =>
      intro st h
      rw [List.foldl_cons]
      apply ih
      cases op with
      | add genId batch =>
          exact handleMultipleFiles_length_le cfg genId st batch h
      | remove id =>
          calc (applyCompOp cfg st (CompOp.remove id)).files.length
              ≤ st.files.length := List.length_filter_le _ _
            _ ≤ effMaxFiles cfg := h

/-! ## Claim theorems -/

/-- C2: for every Constraint Set and every sequence of operations
(`addBatch` with any candidate batch, `remove`, `clear` for the hook;
`addBatch`, `remove` for the component, which has no clear), starting
from the empty collection, the intake collection's length is at most
`maxFileCount` after each operation completes.  For the hook
`maxFileCount` is the resolved `maxFiles` option; for the component it
is the resolved `maxFiles || 6`.  Since the operation sequence is
universally quantified, the bound after every intermediate operation
is the instance of this statement at the corresponding prefix. -/
theorem spec_C2_capacity_invariant :
    (∀ (o : UseFileUploadOptions) (ops : List HookOp),
      (runHookOps o ops).files.length ≤ o.maxFiles) ∧
    (∀ (cfg : CompConfig) (ops : List CompOp),
      (runCompOps cfg ops).files.length ≤ effMaxFiles cfg) := by
  constructor
  · intro o ops
    exact hookOps_invariant o ops initialHookState (by simp [initialHookState])
  · intro cfg ops
    exact compOps_invariant cfg ops initialCompState (by simp [initialCompState])

/-- C9: in the hook's validator a configured bound of `0` disables
the corresponding size check (the JS `maxSize && …` / `minSize && …`
guards): with `maxSize = 0` no file is ever rejected as too large, and
with `minSize = 0` no file is ever rejected as too small. -/
theorem spec_C9_zero_disables_size_checks :
    ∀ (o : UseFileUploadOptions) (f : JsFile),
      (o.maxSize = 0 → ∀ s, validateFile o f ≠ some (HookError.tooLarge s)) ∧
      (o.minSize = 0 → ∀ s, validateFile o f ≠ some (HookError.tooSmall s)) := by
  intro o f
  constructor
  · intro h0 s
    unfold validateFile
    rw [if_neg (by simp [h0])]
    split
    · simp
    · split
      · split <;> simp
      · simp
  · intro h0 s
    unfold validateFile
    split
    · simp
    · rw [if_neg (by simp [h0])]
      split
      · split <;> simp
      · simp

/-- C9 witness: with both bounds `0`, a gigabyte file is rejected by
neither size check (indeed it is accepted outright). -/
theorem spec_C9_witness :
    validateFile oZero hugeFile ≠ some (HookError.tooLarge "huge.bin") ∧
    validateFile oZero hugeFile ≠ some (HookError.tooSmall "huge.bin") ∧
    validateFile oZero hugeFile = none :=
  ⟨(spec_C9_zero_disables_size_checks oZero hugeFile).1 rfl "huge.bin",
   (spec_C9_zero_disables_size_checks oZero hugeFile).2 rfl "huge.bin",
   by decide⟩

/-- C10: every `handleMultipleFiles` call *replaces* the error list
with exactly this batch's rejection messages: the resulting errors do
not depend on the prior error list (only on the prior collection's
length), and a batch in which every candidate is accepted leaves the
error list empty. -/
theorem spec_C10_errors_replaced :
    (∀ (cfg : CompConfig) (genId : Nat → String) (st1 st2 : CompState)
        (batch : List JsFile), st1.files.length = st2.files.length →
      (handleMultipleFiles cfg genId st1 batch).errors =
        (handleMultipleFiles cfg genId st2 batch).errors) ∧
    (∀ (cfg : CompConfig) (genId : Nat → String) (st : CompState)
        (batch : List JsFile),
      (handleMultipleFiles cfg genId st batch).files.length =
          st.files.length + batch.length →
      (handleMultipleFiles cfg genId st batch).errors = []) := by
  constructor
  · intro cfg genId st1 st2 batch h
    simp only [handleMultipleFiles]
    rw [h]
  · intro cfg genId st batch h
    have hcount := compFold_count cfg st.files.length genId batch.enum ([], [])
    simp only [handleMultipleFiles, List.length_append] at h
    simp only [List.length_nil, List.enum_length, Nat.zero_add] at hcount
    simp only [handleMultipleFiles]
    have hlen : (batch.enum.foldl
        (handleMultipleFilesStep cfg st.files.length genId) ([], [])).2.length = 0 := by
      omega
    exact List.length_eq_zero.mp hlen

/-- C10 witness: a fully accepted batch clears a stale error from an
earlier batch, and the resulting error list is what it would have been
from a state with no stale error. -/
theorem spec_C10_witness :
    (handleMultipleFiles cfgAll3 gidA stErrComp [pngFile "a.png"]).errors =
      (handleMultipleFiles cfgAll3 gidA initialCompState [pngFile "a.png"]).errors ∧
    (handleMultipleFiles cfgAll3 gidA stErrComp [pngFile "a.png"]).errors = [] :=
  ⟨spec_C10_errors_replaced.1 cfgAll3 gidA stErrComp initialCompState
      [pngFile "a.png"] rfl,
   spec_C10_errors_replaced.2 cfgAll3 gidA stErrComp [pngFile "a.png"] (by decide)⟩

/-- C1 counterexample: in the hook's `handleFiles` (one of the two
`addBatch` implementations the claim covers), an empty collection with
`maxFileCount = 3` given a batch of 5 otherwise-valid files commits
only the first 3 — but reports *no* error at all: the 2 excess
candidates are silently dropped by `slice(0, maxFiles)`, contradicting
"rejects the other 2 with a CapacityExceeded error message … never
silently dropped". -/
theorem spec_C1_counterexample :
    (handleFiles oMulti3 gidA none initialHookState batch5).files.map
        (fun r => r.file.name) = ["a.png", "b.png", "c.png"] ∧
    (handleFiles oMulti3 gidA none initialHookState batch5).reported = [] := by
  constructor
  · decide
  · decide

/-- C1 (amended): in the multi-file component's `handleMultipleFiles`,
each candidate is validated against the snapshot collection length
plus the accepted-so-far count of the call, so an empty collection
with `maxFileCount = 3` and a batch of 5 otherwise-valid files accepts
exactly the first 3 in input order and rejects the other 2 with the
capacity-exceeded message; the hook's `handleFiles`, by contrast,
performs no capacity validation — with `multiple` on it appends all
valid candidates and silently truncates to `maxFiles`, reporting no
error for the dropped ones. -/
theorem spec_C1_capacity_validation :
    ((handleMultipleFiles cfgAll3 gidA initialCompState batch5).files.map
        FileItem.name = ["a.png", "b.png", "c.png"] ∧
     (handleMultipleFiles cfgAll3 gidA initialCompState batch5).errors =
        [CompError.maxFilesReached 3, CompError.maxFilesReached 3]) ∧
    (∀ (o : UseFileUploadOptions) (genId : Nat → String) (st : HookState)
        (batch : List JsFile),
      o.multiple = true →
      (∀ f ∈ batch, validateFile o f = none) →
      (∀ f ∈ batch, previewOk f = true) →
      batch ≠ [] →
      (handleFiles o genId none st batch).reported = st.reported ∧
      (handleFiles o genId none st batch).files =
        (st.files ++ (List.enumFrom 0 batch).map
          fun p => previewRecord (genId p.1) p.2).take o.maxFiles) := by
  constructor
  · constructor
    · decide
    · decide
  · intro o genId st batch hm hv hp hne
    constructor
    · rw [handleFiles_reported_no_upload, filterMap_nil_of_all_valid o batch hv]
      simp
    · obtain ⟨f0, hf0⟩ := List.exists_mem_of_ne_nil batch hne
      rw [handleFiles_files_success o genId none st batch ⟨f0, hf0, hv f0 hf0⟩ hp,
        filter_valid_of_all_valid o batch hv, hm]
      simp

/-- C1 witness for the amended hook part: the same 5-file batch
against `maxFiles = 3` leaves the reported-error log untouched while
the committed files are the input-order previews truncated to 3. -/
theorem spec_C1_witness :
    (handleFiles oMulti3 gidA none initialHookState batch5).reported =
      initialHookState.reported ∧
    (handleFiles oMulti3 gidA none initialHookState batch5).files =
      (initialHookState.files ++ (List.enumFrom 0 batch5).map
        fun p => previewRecord (gidA p.1) p.2).take oMulti3.maxFiles :=
  spec_C1_capacity_validation.2 oMulti3 gidA initialHookState batch5 rfl
    (by decide) (by decide) (by decide)

/-- C3 counterexample: with `allowMultiple = false` (the hook's
defaults) a batch of two valid candidates leaves the collection with
*two* records, contradicting "after any mutation completes the
collection holds at most one record". -/
theorem spec_C3_counterexample :
    (handleFiles oDefaultOpts gidA none stWithA
        [pngFile "b.png", pngFile "c.png"]).files.map
      (fun r => r.file.name) = ["b.png", "c.png"] := by decide

/-- C3 (amended): when `allowMultiple` is false an accepted batch
*replaces* the existing collection rather than appending to it — the
committed files are independent of the prior collection — so accepting
the single-file batch `[B]` after `A` leaves `list()` containing
exactly `B`'s record; but a batch with several accepted candidates
leaves `min(acceptedCount, maxFileCount)` records, which can exceed
one, and the hook performs no preview-release action (the previews are
inline data-URI strings, and replacement simply drops the old
records). -/
theorem spec_C3_replacement :
    (∀ (o : UseFileUploadOptions) (genId : Nat → String)
        (outcome : Option (Except String Unit)) (st st' : HookState)
        (batch : List JsFile),
      o.multiple = false →
      (∃ f ∈ batch, validateFile o f = none) →
      (∀ f ∈ batch, previewOk f = true) →
      (handleFiles o genId outcome st batch).files =
        (handleFiles o genId outcome st' batch).files) ∧
    (∀ (o : UseFileUploadOptions) (genId : Nat → String) (st : HookState)
        (b : JsFile),
      o.multiple = false → 1 ≤ o.maxFiles →
      validateFile o b = none → previewOk b = true →
      (handleFiles o genId none st [b]).files =
        [previewRecord (genId 0) b]) := by
  constructor
  · intro o genId outcome st st' batch hm hex hp
    rw [handleFiles_files_success o genId outcome st batch hex hp,
      handleFiles_files_success o genId outcome st' batch hex hp, hm]
    simp
  · intro o genId st b hm hmax hv hp
    rw [handleFiles_files_success o genId none st [b]
      ⟨b, by simp, hv⟩ (by simpa using hp), hm]
    obtain ⟨m, hmm⟩ : ∃ m, o.maxFiles = m + 1 := ⟨o.maxFiles - 1, by omega⟩
    simp [hv, hmm, List.enumFrom]

/-- C3 witness: accepting `[B]` from a state already holding `A`
yields the same files as from the empty state, namely exactly `B`'s
record. -/
theorem spec_C3_witness :
    (handleFiles oDefaultOpts gidA none stWithA [pngFile "b.png"]).files =
      (handleFiles oDefaultOpts gidA none initialHookState
        [pngFile "b.png"]).files ∧
    (handleFiles oDefaultOpts gidA none stWithA [pngFile "b.png"]).files =
      [previewRecord (gidA 0) (pngFile "b.png")] :=
  ⟨spec_C3_replacement.1 oDefaultOpts gidA none stWithA initialHookState
      [pngFile "b.png"] rfl
      ⟨pngFile "b.png", by decide, by decide⟩ (by decide),
   spec_C3_replacement.2 oDefaultOpts gidA stWithA (pngFile "b.png") rfl
      (by decide) (by decide) (by decide)⟩

/-- C4 counterexample: the hook's validator performs no capacity check
at all.  With `maxFiles = 1`, a collection already holding `A`, and a
valid candidate `B`, the claim requires `B` to be rejected with
`CapacityExceeded` (one reason, after the size checks): instead
`validateFile` accepts `B`, no error is ever reported, and `B` is
silently discarded by the `slice` truncation. -/
theorem spec_C4_counterexample :
    validateFile oOne (pngFile "b.png") = none ∧
    (handleFiles oOne gidA none stWithA [pngFile "b.png"]).reported = [] ∧
    (handleFiles oOne gidA none stWithA [pngFile "b.png"]).files.map
      (fun r => r.file.name) = ["a.png"] := by
  refine ⟨by decide, by decide, by decide⟩

/-- C4 (amended): each rejected candidate carries exactly one reason —
the first failing check.  In the hook's `validateFile` the checks run
in the order size upper bound (`SizeTooLarge`), size lower bound
(`SizeTooSmall`), type matching (`UnsupportedType`), with no capacity
check; in the component's per-candidate validation they run in the
order size upper bound, capacity (`CapacityExceeded`), type matching,
with no lower bound check.  Each conjunct states one priority: the
listed reason is produced whenever its check fails and the earlier
checks pass, whatever the later checks would say. -/
theorem spec_C4_check_order :
    (∀ (o : UseFileUploadOptions) (f : JsFile),
      o.maxSize ≠ 0 → f.size > o.maxSize →
      validateFile o f = some (HookError.tooLarge f.name)) ∧
    (∀ (o : UseFileUploadOptions) (f : JsFile),
      ¬(o.maxSize ≠ 0 ∧ f.size > o.maxSize) →
      o.minSize ≠ 0 → f.size < o.minSize →
      validateFile o f = some (HookError.tooSmall f.name)) ∧
    (∀ (o : UseFileUploadOptions) (f : JsFile),
      ¬(o.maxSize ≠ 0 ∧ f.size > o.maxSize) →
      ¬(o.minSize ≠ 0 ∧ f.size < o.minSize) →
      o.accept ≠ "*/*" →
      (acceptedTypesOf o.accept).any (hookTypeMatch f) = false →
      validateFile o f = some (HookError.unsupportedType f.name)) ∧
    (∀ (cfg : CompConfig) (E s : Nat) (f : JsFile),
      f.size > effMaxSizeBytes cfg →
      compCheckFile cfg E s f = some (CompError.sizeExceeds f.name)) ∧
    (∀ (cfg : CompConfig) (E s : Nat) (f : JsFile),
      f.size ≤ effMaxSizeBytes cfg → E + s ≥ effMaxFiles cfg →
      compCheckFile cfg E s f = some (CompError.maxFilesReached
        (effMaxFiles cfg))) ∧
    (∀ (cfg : CompConfig) (E s : Nat) (f : JsFile),
      f.size ≤ effMaxSizeBytes cfg → E + s < effMaxFiles cfg →
      compTypeOk cfg f = false →
      compCheckFile cfg E s f = some (CompError.notAccepted f.name)) := by
  refine ⟨?_, ?_, ?_, ?_, ?_, ?_⟩
  · intro o f h1 h2
    simp [validateFile, h1, h2]
  · intro o f h1 h2 h3
    simp [validateFile, h1, h2, h3]
  · intro o f h1 h2 h3 h4
    simp [validateFile, h1, h2, h3, h4]
  · intro cfg E s f h1
    simp [compCheckFile, h1]
  · intro cfg E s f h1 h2
    simp [compCheckFile, Nat.not_lt.mpr h1, h2]
  · intro cfg E s f h1 h2 h3
    simp [compCheckFile, Nat.not_lt.mpr h1, Nat.not_le.mpr h2, h3]

/-- C4 witness: a file failing both size bounds at once is reported
as too large (upper bound first); a full collection given a candidate
of a non-accepted type is reported as over capacity (capacity before
type). -/
theorem spec_C4_witness :
    validateFile { accept := "*/*", maxSize := 50, minSize := 80 }
        { name := "w.bin", size := 60, type := "", content := [] } =
      some (HookError.tooLarge "w.bin") ∧
    compCheckFile cfgImgOne 1 0 pdfFile =
      some (CompError.maxFilesReached 1) :=
  ⟨spec_C4_check_order.1 _ _ (by decide) (by decide),
   spec_C4_check_order.2.2.2.2.1 cfgImgOne 1 0 pdfFile (by decide) (by decide)⟩

/-- C5 counterexample: under the claim's rule the file
`archive.xpng` (extension `xpng`, empty MIME type) matches no pattern
of `[".png"]` and must be rejected with `UnsupportedType`; the
component's matcher instead tests whether the lowercased *name ends
with* `"png"` (the pattern minus its first dot), so the candidate is
accepted with no error. -/
theorem spec_C5_counterexample :
    specPatternMatches xpngFile ".png" = false ∧
    compTypeMatch xpngFile ".png" = true ∧
    (handleMultipleFiles cfgPng gidA initialCompState [xpngFile]).errors = [] ∧
    (handleMultipleFiles cfgPng gidA initialCompState [xpngFile]).files.map
      FileItem.name = ["archive.xpng"] := by
  refine ⟨by decide, by decide, by decide, by decide⟩

/-- C5 (amended): a pattern ending in `/*` accepts the files whose
`mimeType` starts with the pattern minus its first `/*`, identically
in the hook and in the component (`image/*` accepts `image/png` and
rejects `application/pdf`).  For any other pattern the hook accepts
exactly the files whose `mimeType` equals it verbatim — it has no
extension-based matching at all — while the component additionally
accepts any file whose lowercased name *ends with* the pattern minus
its first dot (an ends-with test on the raw name, not a comparison of
the substring after the last dot, and case-sensitive in the pattern).
A file matching no pattern is rejected as unsupported. -/
theorem spec_C5_type_matching :
    (validateFile oImg (pngFile "a.png") = none ∧
     validateFile oImg pdfFile = some (HookError.unsupportedType "doc.pdf")) ∧
    (∀ (f : JsFile) (t : String), strEndsWith t "/*" = false →
      hookTypeMatch f t = (f.type == t)) ∧
    (∀ (f : JsFile) (t : String), strEndsWith t "/*" = false →
      compTypeMatch f t =
        (f.type == t || strEndsWith (strToLower f.name) (replaceFirst t "."))) ∧
    (∀ (f : JsFile) (t : String), strEndsWith t "/*" = true →
      compTypeMatch f t = hookTypeMatch f t) := by
  refine ⟨⟨by decide, by decide⟩, ?_, ?_, ?_⟩
  · intro f t h
    simp [hookTypeMatch, h]
  · intro f t h
    simp [compTypeMatch, h]
  · intro f t h
    simp [compTypeMatch, hookTypeMatch, h]

/-- C5 witness: the hook matches `.png` only against a literal MIME
type `".png"`; the component's `.png` test is the name-ends-with test;
on the wildcard pattern the two matchers agree. -/
theorem spec_C5_witness :
    hookTypeMatch xpngFile ".png" = (xpngFile.type == ".png") ∧
    compTypeMatch xpngFile ".png" =
      (xpngFile.type == ".png" ||
        strEndsWith (strToLower xpngFile.name) (replaceFirst ".png" ".")) ∧
    compTypeMatch pdfFile "image/*" = hookTypeMatch pdfFile "image/*" :=
  ⟨spec_C5_type_matching.2.1 xpngFile ".png" (by decide),
   spec_C5_type_matching.2.2.1 xpngFile ".png" (by decide),
   spec_C5_type_matching.2.2.2 pdfFile "image/*" (by decide)⟩

/-- C6 counterexample: `createFilePreview` is *not* total.  For a
non-image candidate whose name contains a character above `U+00FF`,
`btoa(file.name)` throws inside the `new Promise` executor, so the
returned promise rejects (`none`) instead of resolving — there is no
defensive fallback in the code. -/
theorem spec_C6_counterexample :
    createFilePreview "id0" smileyFile = none := by decide

/-- C6 (amended): the preview promise resolves for every image-typed
candidate — with `data:<mimeType>;base64,<bytes>`, whose base64
payload decodes back to exactly the file's bytes — and for every
non-image candidate whose name is Latin-1, with the placeholder
`data:text/plain;base64,btoa(name)`; a non-image candidate with a
non-Latin-1 name makes the promise reject instead. -/
theorem spec_C6_preview_resolution :
    ∀ (id : String) (f : JsFile),
      (strStartsWith f.type "image/" = true →
        createFilePreview id f = some (previewRecord id f) ∧
        (previewRecord id f).preview =
          "data:" ++ f.type ++ ";base64," ++ base64Encode f.content ∧
        ((∀ b ∈ f.content, b < 256) →
          base64Decode (base64Encode f.content) = f.content)) ∧
      (strStartsWith f.type "image/" = false →
        f.name.data.all (fun c => c.toNat ≤ 255) = true →
        createFilePreview id f = some (previewRecord id f) ∧
        (previewRecord id f).preview =
          "data:text/plain;base64," ++ base64Encode (strBytes f.name)) := by
  intro id f
  constructor
  · intro himg
    refine ⟨createFilePreview_eq_some id f (by simp [previewOk, himg]), ?_, ?_⟩
    · simp [previewRecord, himg]
    · intro hb
      show b64DecodeChars (String.mk (b64EncodeBytes f.content)).data = f.content
      exact b64_roundtrip f.content hb
  · intro himg hlat
    refine ⟨createFilePreview_eq_some id f (by simp [previewOk, himg, hlat]), ?_⟩
    simp [previewRecord, himg]

/-- C6 witness: an image file with bytes `[1, 2, 3]` resolves with a
decodable base64 data-URI; a Latin-1-named text file resolves with its
placeholder. -/
theorem spec_C6_witness :
    createFilePreview "id0" imgBytesFile =
      some (previewRecord "id0" imgBytesFile) ∧
    base64Decode (base64Encode imgBytesFile.content) = imgBytesFile.content ∧
    createFilePreview "id1" txtFile = some (previewRecord "id1" txtFile) := by
  have h1 := (spec_C6_preview_resolution "id0" imgBytesFile).1 (by decide)
  have h2 := (spec_C6_preview_resolution "id1" txtFile).2 (by decide) (by decide)
  exact ⟨h1.1, h1.2.2 (by decide), h2.1⟩

/-- C7: within one `addBatch` call with an all-valid batch, the
committed records are the candidates' previews in input order —
whatever order the preview promises complete in (any completion
schedule covering every index gives exactly the state of the
order-preserving `Promise.all` model), with previews awaited as a
group before the single commit. -/
theorem spec_C7_order_independent_of_schedule :
    ∀ (o : UseFileUploadOptions) (genId : Nat → String) (st : HookState)
      (batch : List JsFile) (order : List Nat),
      (∀ f ∈ batch, validateFile o f = none) →
      (∀ f ∈ batch, previewOk f = true) →
      batch ≠ [] →
      (∀ i, i < batch.length → i ∈ order) →
      handleFilesWithSchedule o genId none st batch order =
        some (handleFiles o genId none st batch) ∧
      (handleFiles o genId none st batch).files =
        ((if o.multiple then st.files else []) ++
          (List.enumFrom 0 batch).map
            (fun p => previewRecord (genId p.1) p.2)).take o.maxFiles := by
  intro o genId st batch order hv hp hne hcov
  have hfilter := filter_valid_of_all_valid o batch hv
  have hpos : 0 < (batch.filter fun f => (validateFile o f).isNone).length := by
    rw [hfilter]
    exact List.length_pos.mpr hne
  have hseq : sequenceOptions (previewTasks genId
      (batch.filter fun f => (validateFile o f).isNone)) =
      some ((List.enumFrom 0 batch).map
        fun p => previewRecord (genId p.1) p.2) := by
    rw [hfilter]
    exact previewTasks_eq_some genId batch hp
  have hfill : sequenceOptions (fillSlots
      ((List.enumFrom 0 batch).map fun p => previewRecord (genId p.1) p.2)
      order) =
      some ((List.enumFrom 0 batch).map
        fun p => previewRecord (genId p.1) p.2) := by
    apply sequenceOptions_fillSlots
    intro j hj
    apply hcov
    simpa using hj
  constructor
  · cases hm : o.multiple with
    | false => simp [handleFilesWithSchedule, handleFiles, hpos, hseq, hfill, hm]
    | true => simp [handleFilesWithSchedule, handleFiles, hpos, hseq, hfill, hm]
  · obtain ⟨f0, hf0⟩ := List.exists_mem_of_ne_nil batch hne
    have hfs := handleFiles_files_success o genId none st batch
      ⟨f0, hf0, hv f0 hf0⟩ hp
    rw [hfilter] at hfs
    exact hfs

/-- C7 witness: three valid image files with the completion schedule
`[2, 0, 1]` (third preview resolves first) commit in input order. -/
theorem spec_C7_witness :
    handleFilesWithSchedule oMulti3 gidA none initialHookState batch3
        [2, 0, 1] = some (handleFiles oMulti3 gidA none initialHookState
          batch3) ∧
    (handleFiles oMulti3 gidA none initialHookState batch3).files =
      ((if oMulti3.multiple then initialHookState.files else []) ++
        (List.enumFrom 0 batch3).map
          (fun p => previewRecord (gidA p.1) p.2)).take oMulti3.maxFiles :=
  spec_C7_order_independent_of_schedule oMulti3 gidA initialHookState batch3
    [2, 0, 1] (by decide) (by decide) (by decide) (by decide)

/-- C8: when the configured upload action rejects, the `catch` block
resets `uploadProgress` to 0 and `isUploading` to false (`Idle`), the
error is surfaced through the `onError` callback (appended to the
reported list; the model's totality reflects that nothing is thrown
across the component boundary), and the intake collection is exactly
what it is under a successful or absent upload — the accepted files
remain listed. -/
theorem spec_C8_upload_failure :
    ∀ (o : UseFileUploadOptions) (genId : Nat → String) (st : HookState)
      (batch : List JsFile) (msg : String),
      (∃ f ∈ batch, validateFile o f = none) →
      (∀ f ∈ batch, previewOk f = true) →
      (handleFiles o genId (some (Except.error msg)) st batch).isUploading
          = false ∧
      (handleFiles o genId (some (Except.error msg)) st batch).uploadProgress
          = 0 ∧
      (handleFiles o genId (some (Except.error msg)) st batch).files =
        (handleFiles o genId none st batch).files ∧
      (handleFiles o genId (some (Except.error msg)) st batch).reported =
        st.reported ++ batch.filterMap (validateFile o) ++
          [HookError.uploadFailed msg] := by
  intro o genId st batch msg hex hp
  obtain ⟨f0, hf0, hv0⟩ := hex
  have hmem : f0 ∈ batch.filter fun f => (validateFile o f).isNone :=
    List.mem_filter.mpr ⟨hf0, by simp [hv0]⟩
  have hpos : 0 < (batch.filter fun f => (validateFile o f).isNone).length :=
    List.length_pos.mpr (List.ne_nil_of_mem hmem)
  have hpfilter : ∀ f ∈ batch.filter (fun f => (validateFile o f).isNone),
      previewOk f = true := fun f hf => hp f (List.mem_filter.mp hf).1
  have hseq := previewTasks_eq_some genId _ hpfilter
  refine ⟨?_, ?_, ?_, ?_⟩
  · simp [handleFiles, hpos, hseq]
  · simp [handleFiles, hpos, hseq]
  · rw [handleFiles_files_success o genId _ st batch ⟨f0, hf0, hv0⟩ hp,
      handleFiles_files_success o genId none st batch ⟨f0, hf0, hv0⟩ hp]
  · simp [handleFiles, hpos, hseq]

/-- C8 witness: a rejecting upload action over an accepted three-file
batch ends `Idle` with progress 0, the same collection as without the
upload, and the failure message reported last. -/
theorem spec_C8_witness :
    (handleFiles oMulti3 gidA (some (Except.error "boom")) initialHookState
        batch3).isUploading = false ∧
    (handleFiles oMulti3 gidA (some (Except.error "boom")) initialHookState
        batch3).uploadProgress = 0 ∧
    (handleFiles oMulti3 gidA (some (Except.error "boom")) initialHookState
        batch3).files =
      (handleFiles oMulti3 gidA none initialHookState batch3).files ∧
    (handleFiles oMulti3 gidA (some (Except.error "boom")) initialHookState
        batch3).reported =
      initialHookState.reported ++ batch3.filterMap (validateFile oMulti3) ++
        [HookError.uploadFailed "boom"] :=
  spec_C8_upload_failure oMulti3 gidA initialHookState batch3 "boom"
    ⟨pngFile "a.png", by decide, by decide⟩ (by decide)

end FileUploadLib
